import Mathlib

/-!
Verification of the bebop host co-simulation core.

Shallow embedding of:
- `src/host/ipc/src/socket/socket.cc` (`SocketClient`: session lifecycle,
  command channel, DMA responder loops) in namespace `Ipc`;
- `src/customext/src/socket/socket.cc` (single-channel `SocketClient`)
  in namespace `Customext`;
- `src/host/spike/customext/src/bebop.cc` (memory access adapter
  `read_from_dram` / `write_to_dram`, the `read_cb` / `write_cb` lambdas,
  and the `bebop_custom` instruction hook) in namespace `Bebop`.

Machine integers are modelled as `Nat` (with explicit `% 2 ^ w` or `&&&`
masks exactly where the C code truncates); file descriptors as `Int`
(negative means invalid, as in the source); fallible socket operations
take their I/O outcome (success flags, byte counts, payloads) as explicit
environment parameters, since those outcomes come from the operating
system, and return the `Bool` the C function returns together with the
updated client state.
-/

namespace Ipc

/-- The message-kind tag (`msg_type` values `MSG_TYPE_*` from `ipc/socket.h`,
modelled abstractly since only their distinctness matters). -/
inductive MsgType where
  | cmdReq
  | cmdResp
  | dmaReadReq
  | dmaReadResp
  | dmaWriteReq
  | dmaWriteResp
deriving DecidableEq

/-- `msg_header_t`: message kind plus an explicit reserved/padding field. -/
structure MsgHeader where
  msg_type : MsgType
  reserved : Nat
deriving DecidableEq

/-- `cmd_req_t`: header, 32-bit function selector, explicit padding,
two 64-bit operands. -/
structure CmdReq where
  header : MsgHeader
  funct : Nat
  padding : Nat
  xs1 : Nat
  xs2 : Nat
deriving DecidableEq

/-- `sizeof(cmd_resp_t)`: one 64-bit result field, 8 bytes
(wire table in the spec; `ipc/socket.h` itself is not under `src/`). -/
def sizeof_cmd_resp : Int := 8

/-- The mutable fields of `SocketClient` (host IPC side): three socket
file descriptors, the ready flag `socket_initialized`, and the DMA-loop
stop flag `dma_handler_running`. -/
structure SocketState where
  cmd_sock_fd : Int
  dma_read_sock_fd : Int
  dma_write_sock_fd : Int
  socket_initialized : Bool
  dma_handler_running : Bool
deriving DecidableEq

/-- The constructor `SocketClient::SocketClient()`:
`cmd_sock_fd(-1), dma_read_sock_fd(-1), dma_write_sock_fd(-1),
socket_initialized(false), dma_handler_running(false)`. -/
def SocketState.initial : SocketState :=
  { cmd_sock_fd := -1
    dma_read_sock_fd := -1
    dma_write_sock_fd := -1
    socket_initialized := false
    dma_handler_running := false }

/-- Outcomes of the operating-system calls made inside `SocketClient::init`:
whether each `socket()` call succeeds and the descriptor it returns,
whether `inet_pton` accepts the address, and whether each of the three
`connect()` calls succeeds. -/
structure InitEnv where
  cmdSockOk : Bool
  cmdFd : Nat
  ptonOk : Bool
  cmdConnOk : Bool
  drSockOk : Bool
  drFd : Nat
  drConnOk : Bool
  dwSockOk : Bool
  dwFd : Nat
  dwConnOk : Bool
deriving DecidableEq

/-- `SocketClient::start_dma_handler`: if already running do nothing,
else set the running flag (and detach the two handler threads, which are
modelled separately as `dma_read_handler_thread` / `dma_write_handler_thread`). -/
def SocketState.start_dma_handler (s : SocketState) : SocketState :=
  if s.dma_handler_running then s else { s with dma_handler_running := true }

/-- `SocketClient::init`, branch by branch.  `socket()` returning a
negative value leaves the stored descriptor negative; every failure path
closes (and sets to `-1`) exactly the descriptors the C code closes, and
returns `false` with `socket_initialized` still `false`.  On full success
all three descriptors are the fresh nonnegative ones, the ready flag is
set and `start_dma_handler` runs. -/
def SocketState.init (s : SocketState) (e : InitEnv) : Bool × SocketState :=
  if s.socket_initialized then (true, s)
  else
    -- cmd_sock_fd = socket(...)
    let cmdFd : Int := if e.cmdSockOk then (e.cmdFd : Int) else -1
    if cmdFd < 0 then (false, { s with cmd_sock_fd := cmdFd })
    else if !e.ptonOk then (false, { s with cmd_sock_fd := -1 })
    else if !e.cmdConnOk then (false, { s with cmd_sock_fd := -1 })
    else
      -- dma_read_sock_fd = socket(...)
      let drFd : Int := if e.drSockOk then (e.drFd : Int) else -1
      if drFd < 0 then
        (false, { s with cmd_sock_fd := -1, dma_read_sock_fd := drFd })
      else if !e.drConnOk then
        (false, { s with cmd_sock_fd := -1, dma_read_sock_fd := -1 })
      else
        -- dma_write_sock_fd = socket(...)
        let dwFd : Int := if e.dwSockOk then (e.dwFd : Int) else -1
        if dwFd < 0 then
          (false, { s with cmd_sock_fd := -1, dma_read_sock_fd := -1,
                           dma_write_sock_fd := dwFd })
        else if !e.dwConnOk then
          (false, { s with cmd_sock_fd := -1, dma_read_sock_fd := -1,
                           dma_write_sock_fd := -1 })
        else
          (true, SocketState.start_dma_handler
            { s with cmd_sock_fd := cmdFd, dma_read_sock_fd := drFd,
                     dma_write_sock_fd := dwFd, socket_initialized := true })

/-- The state `init` reaches when all three connections succeed: fresh
descriptors installed, ready flag set, DMA handler running. -/
def SocketState.connected (s : SocketState) (e : InitEnv) : SocketState :=
  { s with cmd_sock_fd := (e.cmdFd : Int),
           dma_read_sock_fd := (e.drFd : Int),
           dma_write_sock_fd := (e.dwFd : Int),
           socket_initialized := true,
           dma_handler_running := true }

/-- `SocketClient::close`: clear the DMA-loop flag, close any open
descriptor (setting it to `-1`), clear the ready flag. -/
def SocketState.close (s : SocketState) : SocketState :=
  { dma_handler_running := false
    cmd_sock_fd := if s.cmd_sock_fd ≥ 0 then -1 else s.cmd_sock_fd
    dma_read_sock_fd := if s.dma_read_sock_fd ≥ 0 then -1 else s.dma_read_sock_fd
    dma_write_sock_fd := if s.dma_write_sock_fd ≥ 0 then -1 else s.dma_write_sock_fd
    socket_initialized := false }

/-- `SocketClient::send_cmd_request`: fails without closing when not
connected; a failed `send()` (negative return, modelled by `sendErr`)
closes the whole session; otherwise succeeds. -/
def SocketState.send_cmd_request (s : SocketState) (sendErr : Bool) :
    Bool × SocketState :=
  if s.cmd_sock_fd < 0 then (false, s)
  else if sendErr then (false, s.close)
  else (true, s)

/-- `SocketClient::recv_cmd_response`: fails without closing when not
connected; a negative, zero, or short (`received < sizeof(resp)`) receive
closes the whole session and fails; otherwise the response is complete. -/
def SocketState.recv_cmd_response (s : SocketState) (received : Int) :
    Bool × SocketState :=
  if s.cmd_sock_fd < 0 then (false, s)
  else if received < 0 then (false, s.close)
  else if received = 0 then (false, s.close)
  else if received < sizeof_cmd_resp then (false, s.close)
  else (true, s)

/-- `SocketClient::recv_header` (a `MSG_PEEK` on the command socket):
fails without closing when not connected; a negative or zero receive
closes the session; any positive byte count is accepted — there is no
short-read check here. -/
def SocketState.recv_header (s : SocketState) (received : Int) :
    Bool × SocketState :=
  if s.cmd_sock_fd < 0 then (false, s)
  else if received < 0 then (false, s.close)
  else if received = 0 then (false, s.close)
  else (true, s)

/-- The I/O outcomes one call to `send_and_wait` can observe: the
connect-step outcomes (used only when not yet ready), whether the
`send()` of the request fails, the byte count the response `recv()`
returns, and the 64-bit result carried by a complete response. -/
structure SawEnv where
  initEnv : InitEnv
  sendErr : Bool
  recvRet : Int
  respResult : Nat
deriving DecidableEq

/-- Result of one `send_and_wait` call, instrumented for verification:
the returned value, the final client state, how many times `init` was
invoked, and the request record handed to `send_cmd_request` (if the
call got that far). -/
structure SawResult where
  result : Nat
  state : SocketState
  connectAttempts : Nat
  sentRequest : Option CmdReq
deriving DecidableEq

/-- `SocketClient::send_and_wait`: lazy single connect attempt, build the
request record with explicitly zeroed reserved/padding fields, send it,
block for the response; any failure yields the sentinel `0`. -/
def SocketState.send_and_wait (s : SocketState) (env : SawEnv)
    (funct xs1 xs2 : Nat) : SawResult :=
  let connect :=
    if !s.socket_initialized then
      let r := s.init env.initEnv
      (r.1, r.2, 1)
    else (true, s, 0)
  match connect with
  | (ok, s1, attempts) =>
    if !ok then ⟨0, s1, attempts, none⟩
    else
      let cmd_req : CmdReq :=
        { header := { msg_type := MsgType.cmdReq, reserved := 0 }
          funct := funct
          padding := 0
          xs1 := xs1
          xs2 := xs2 }
      let sendR := s1.send_cmd_request env.sendErr
      if !sendR.1 then ⟨0, sendR.2, attempts, some cmd_req⟩
      else
        let recvR := sendR.2.recv_cmd_response env.recvRet
        if !recvR.1 then ⟨0, recvR.2, attempts, some cmd_req⟩
        else ⟨env.respResult, recvR.2, attempts, some cmd_req⟩

/-- A lifecycle operation on the session: one `init` call (with its
environment of OS outcomes) or one `close` call. -/
inductive SessionOp where
  | init (e : InitEnv)
  | close

/-- Apply one lifecycle operation. -/
def SocketState.applyOp (s : SocketState) : SessionOp → SocketState
  | SessionOp.init e => (s.init e).2
  | SessionOp.close => s.close

/-- Session invariant from the spec: the session is ready and all three
descriptors are valid, or it is not ready and all three are invalid
(where the constructor and every failure path use `-1`). -/
def SessionInv (s : SocketState) : Prop :=
  (s.socket_initialized = true ∧
    s.cmd_sock_fd ≥ 0 ∧ s.dma_read_sock_fd ≥ 0 ∧ s.dma_write_sock_fd ≥ 0) ∨
  (s.socket_initialized = false ∧
    s.cmd_sock_fd = -1 ∧ s.dma_read_sock_fd = -1 ∧ s.dma_write_sock_fd = -1)

instance (s : SocketState) : Decidable (SessionInv s) := by
  unfold SessionInv; infer_instance

/-- All connection handles invalidated and the ready flag cleared. -/
def AllClosed (s : SocketState) : Prop :=
  s.cmd_sock_fd = -1 ∧ s.dma_read_sock_fd = -1 ∧ s.dma_write_sock_fd = -1 ∧
  s.socket_initialized = false

instance (s : SocketState) : Decidable (AllClosed s) := by
  unfold AllClosed; infer_instance

/-- Whether the `init` environment makes all seven fallible steps succeed. -/
def InitEnv.succeeds (e : InitEnv) : Bool :=
  e.cmdSockOk && e.ptonOk && e.cmdConnOk && e.drSockOk && e.drConnOk &&
  e.dwSockOk && e.dwConnOk

end Ipc

namespace Customext

/-- `sizeof(socket_resp_t)`: one 64-bit result field, 8 bytes. -/
def sizeof_socket_resp : Int := 8

/-- The mutable fields of the customext `SocketClient`: one descriptor
and the ready flag. -/
structure CState where
  sock_fd : Int
  socket_initialized : Bool
deriving DecidableEq

/-- `SocketClient::close` (customext): close the descriptor if open,
clear the ready flag. -/
def CState.close (s : CState) : CState :=
  let s := if s.sock_fd ≥ 0 then { s with sock_fd := -1 } else s
  { s with socket_initialized := false }

/-- `SocketClient::recv_response` (customext): fails without closing when
not connected; a negative or zero `recv()` return closes the client and
fails; any positive byte count — even one smaller than
`sizeof(socket_resp_t)` — is accepted as success. -/
def CState.recv_response (s : CState) (received : Int) : Bool × CState :=
  if s.sock_fd < 0 then (false, s)
  else if received < 0 then (false, s.close)
  else if received = 0 then (false, s.close)
  else (true, s)

end Customext

namespace Bebop

/-- `dma_data_128_t`: two 64-bit halves carrying up to 128 bits. -/
structure Dma128 where
  lo : Nat
  hi : Nat
deriving DecidableEq

/-- Byte-addressable simulated memory (the mmu the spike processor hands
the extension); each cell holds one byte. -/
def Mem : Type := Nat → Nat

/-- `p->get_mmu()->load<uint8_t>(addr)`: the single-byte load primitive;
the result is a `uint8_t`, hence reduced mod 256. -/
def loadByte (m : Mem) (a : Nat) : Nat := m a % 256

/-- `p->get_mmu()->store<uint8_t>(addr, v)`: the single-byte store
primitive; the stored value is a `uint8_t`, hence reduced mod 256. -/
def storeByte (m : Mem) (a v : Nat) : Mem :=
  fun x => if x = a then v % 256 else m x

/-- `bebop_t::read_from_dram<T>` with `w = sizeof(T)`: assemble `w` bytes
least-significant-byte-first with `value |= byte << (byte_idx * 8)`.
(`T`-width arithmetic never overflows here because byte `i` contributes
only to bits `8 i .. 8 i + 7`, so plain `Nat` arithmetic is exact.) -/
def read_from_dram (m : Mem) (a w : Nat) : Nat :=
  (List.range w).foldl (fun value byte_idx =>
    value ||| (loadByte m (a + byte_idx)) <<< (byte_idx * 8)) 0

/-- `bebop_t::write_to_dram<T>` with `w = sizeof(T)`: store the `w` bytes
`(data >> (byte_idx * 8)) & 0xFF` at consecutive addresses. -/
def write_to_dram (m : Mem) (a data w : Nat) : Mem :=
  (List.range w).foldl (fun mm byte_idx =>
    storeByte mm (a + byte_idx) ((data >>> (byte_idx * 8)) &&& 0xFF)) m

/-- The `read_cb` lambda installed by `bebop_t::CUSTOMFN`: dispatch on the
access width; widths 1/2/4/8 fill only the low half, width 16 reads two
8-byte halves at a fixed boundary; any other width hits `abort()`,
modelled as `none`. -/
def read_cb (m : Mem) (addr : Nat) (size : Nat) : Option Dma128 :=
  match size with
  | 1 => some { lo := read_from_dram m addr 1, hi := 0 }
  | 2 => some { lo := read_from_dram m addr 2, hi := 0 }
  | 4 => some { lo := read_from_dram m addr 4, hi := 0 }
  | 8 => some { lo := read_from_dram m addr 8, hi := 0 }
  | 16 => some { lo := read_from_dram m addr 8,
                 hi := read_from_dram m (addr + 8) 8 }
  | _ => none

/-- The `write_cb` lambda installed by `bebop_t::CUSTOMFN`: widths 1/2/4
truncate `data.lo` with `static_cast` before the multi-byte store, width 8
stores `data.lo`, width 16 stores both halves; any other width hits
`abort()`, modelled as `none`. -/
def write_cb (m : Mem) (addr : Nat) (data : Dma128) (size : Nat) :
    Option Mem :=
  match size with
  | 1 => some (write_to_dram m addr (data.lo % 2 ^ 8) 1)
  | 2 => some (write_to_dram m addr (data.lo % 2 ^ 16) 2)
  | 4 => some (write_to_dram m addr (data.lo % 2 ^ 32) 4)
  | 8 => some (write_to_dram m addr data.lo 8)
  | 16 => some (write_to_dram (write_to_dram m addr data.lo 8)
                  (addr + 8) data.hi 8)
  | _ => none

/-- Spec-side little-endian composition: byte `i` of the range
`[a, a + w)` contributes shifted left by `8 i`
(stated with `*` and `∑` to be compared against `read_from_dram`,
which is translated from the source's `|=` / `<<` loop). -/
def leCompose (m : Mem) (a w : Nat) : Nat :=
  Finset.sum (Finset.range w) (fun i => (m (a + i) % 256) * 2 ^ (8 * i))

/-- `reg_t(-1)`: `reg_t` is `uint64_t`, so `-1` is the all-ones value. -/
def allOnes64 : Nat := 2 ^ 64 - 1

/-- The fields of `rocc_insn_t` the hook uses: the three register-use
bits, the three register indices, and the function selector. -/
structure RoccInsn where
  xs1 : Bool
  xs2 : Bool
  xd : Bool
  rs1 : Nat
  rs2 : Nat
  rd : Nat
  funct : Nat

/-- Result of one execution of the `bebop_custom` hook, instrumented for
verification: the register file after the hook, the next pc it returns,
and the funct/operand triple it passed to `send_and_wait`. -/
structure HookResult where
  xpr : Nat → Nat
  nextPc : Nat
  dispatchedFunct : Nat
  dispatchedA : Nat
  dispatchedB : Nat

/-- The `bebop_custom` instruction hook
(`src/host/spike/customext/src/bebop.cc`): read each source register only
if its use bit is set (else pass `reg_t(-1)`), dispatch through the
socket client (abstracted as `dispatch`, since its value comes from the
accelerator process), write the destination register only if `xd` is set,
and fall through to `pc + 4`. -/
def bebop_custom (dispatch : Nat → Nat → Nat → Nat) (xpr : Nat → Nat)
    (u : RoccInsn) (pc : Nat) : HookResult :=
  let xs1 := if u.xs1 then xpr u.rs1 else allOnes64
  let xs2 := if u.xs2 then xpr u.rs2 else allOnes64
  let xd := dispatch u.funct xs1 xs2
  let xpr1 := if u.xd then (fun r => if r = u.rd then xd else xpr r) else xpr
  { xpr := xpr1, nextPc := pc + 4,
    dispatchedFunct := u.funct, dispatchedA := xs1, dispatchedB := xs2 }

/-- Concrete fixture memory for witnesses: byte `i` holds `i + 1`. -/
def sampleMem : Mem := fun i => (i + 1) % 256

/-- Concrete fixture instruction for witnesses: `xs1` clear, `xs2` and
`xd` set. -/
def hookInsn : RoccInsn :=
  { xs1 := false, xs2 := true, xd := true, rs1 := 1, rs2 := 2, rd := 3,
    funct := 24 }

end Bebop

namespace Ipc

/-- `dma_read_req_t`: address and access width. -/
structure DmaReadReq where
  addr : Nat
  size : Nat
deriving DecidableEq

/-- `dma_read_resp_t`: header plus the two 64-bit data halves. -/
structure DmaReadResp where
  header : MsgHeader
  data_lo : Nat
  data_hi : Nat
deriving DecidableEq

/-- `dma_write_req_t`: address, the two data halves, and access width. -/
structure DmaWriteReq where
  addr : Nat
  data_lo : Nat
  data_hi : Nat
  size : Nat
deriving DecidableEq

/-- `dma_write_resp_t`: header plus a reserved field. -/
structure DmaWriteResp where
  header : MsgHeader
  reserved : Nat
deriving DecidableEq

/-- Observable events of the DMA read responder loop. -/
inductive ReadEv where
  | recvReq (r : DmaReadReq)
  | invokeCb (r : DmaReadReq)
  | sendResp (resp : DmaReadResp)
  | recvFail
  | sendFail
deriving DecidableEq

/-- Observable events of the DMA write responder loop. -/
inductive WriteEv where
  | recvReq (r : DmaWriteReq)
  | invokeCb (r : DmaWriteReq)
  | sendResp (resp : DmaWriteResp)
  | recvFail
  | sendFail
deriving DecidableEq

/-- The environment of one iteration of a responder loop: the value of
the `while` guard (`dma_handler_running && socket_initialized && fd >= 0`,
read from shared state that `close()` may change concurrently), the
outcome of the blocking receive (`none` models `recv_dma_*_request`
returning failure), and whether the response send succeeds. -/
structure ReadIter where
  guard : Bool
  recvOk : Option DmaReadReq
  sendOk : Bool

/-- One loop-iteration environment for the write-side responder. -/
structure WriteIter where
  guard : Bool
  recvOk : Option DmaWriteReq
  sendOk : Bool

/-- The response record the read-side loop builds from the callback
result: `msg_type = MSG_TYPE_DMA_READ_RESP`, `reserved = 0`, both halves
copied from the callback's `dma_data_128_t`. -/
def mkDmaReadResp (d : Bebop.Dma128) : DmaReadResp :=
  { header := { msg_type := MsgType.dmaReadResp, reserved := 0 }
    data_lo := d.lo
    data_hi := d.hi }

/-- The constant response record the write-side loop builds:
`msg_type = MSG_TYPE_DMA_WRITE_RESP`, both reserved fields zero. -/
def mkDmaWriteResp : DmaWriteResp :=
  { header := { msg_type := MsgType.dmaWriteResp, reserved := 0 }
    reserved := 0 }

/-- `SocketClient::dma_read_handler_thread` as an event trace: while the
guard holds, block for one request; a failed receive ends the loop; a
received request is serviced by exactly one call to the installed read
callback (`handle_dma_read`, which forwards to `dma_read_cb`; the
forwarding body is not under `src/` and is modelled from the spec:
servicing invokes the Memory Access Adapter with the installed callback),
then exactly one response is sent; a failed send ends the loop. -/
def dma_read_handler_thread (cb : Nat → Nat → Bebop.Dma128) :
    List ReadIter → List ReadEv
  | [] => []
  | it :: rest =>
    if it.guard then
      match it.recvOk with
      | none => [ReadEv.recvFail]
      | some req =>
        let d := cb req.addr req.size
        ReadEv.recvReq req :: ReadEv.invokeCb req ::
          (if it.sendOk then
            ReadEv.sendResp (mkDmaReadResp d) :: dma_read_handler_thread cb rest
          else [ReadEv.sendFail])
    else []

/-- `SocketClient::dma_write_handler_thread` as an event trace, mirroring
the read side: one receive, one write-callback invocation
(`handle_dma_write`, modelled from the spec as forwarding to the
installed callback), one constant response per iteration; the first
receive or send failure ends the loop. -/
def dma_write_handler_thread : List WriteIter → List WriteEv
  | [] => []
  | it :: rest =>
    if it.guard then
      match it.recvOk with
      | none => [WriteEv.recvFail]
      | some req =>
        WriteEv.recvReq req :: WriteEv.invokeCb req ::
          (if it.sendOk then
            WriteEv.sendResp mkDmaWriteResp :: dma_write_handler_thread rest
          else [WriteEv.sendFail])
    else []

/-- One complete service round of the read loop for request `r`:
receive, single callback invocation, response carrying the callback's
result. -/
def readRound (cb : Nat → Nat → Bebop.Dma128) (r : DmaReadReq) :
    List ReadEv :=
  [ReadEv.recvReq r, ReadEv.invokeCb r,
   ReadEv.sendResp (mkDmaReadResp (cb r.addr r.size))]

/-- One complete service round of the write loop for request `r`. -/
def writeRound (r : DmaWriteReq) : List WriteEv :=
  [WriteEv.recvReq r, WriteEv.invokeCb r, WriteEv.sendResp mkDmaWriteResp]

/-- Concrete fixture: an `InitEnv` in which the very first step fails. -/
def envAllFail : InitEnv :=
  { cmdSockOk := false, cmdFd := 0, ptonOk := false, cmdConnOk := false,
    drSockOk := false, drFd := 0, drConnOk := false,
    dwSockOk := false, dwFd := 0, dwConnOk := false }

/-- Concrete fixture: an `InitEnv` in which every step succeeds. -/
def envAllOk : InitEnv :=
  { cmdSockOk := true, cmdFd := 3, ptonOk := true, cmdConnOk := true,
    drSockOk := true, drFd := 4, drConnOk := true,
    dwSockOk := true, dwFd := 5, dwConnOk := true }

/-- Concrete fixture: a ready session state with valid descriptors. -/
def readyState : SocketState :=
  { cmd_sock_fd := 3, dma_read_sock_fd := 4, dma_write_sock_fd := 5,
    socket_initialized := true, dma_handler_running := true }

end Ipc

namespace Ipc

theorem close_fields (s : SocketState) :
    s.close.cmd_sock_fd < 0 ∧ s.close.dma_read_sock_fd < 0 ∧
    s.close.dma_write_sock_fd < 0 ∧ s.close.socket_initialized = false ∧
    s.close.dma_handler_running = false := by
  refine ⟨?_, ?_, ?_, rfl, rfl⟩ <;>
    simp only [SocketState.close] <;> split_ifs <;> omega

theorem close_allClosed_of_inv (s : SocketState) (h : SessionInv s) :
    AllClosed s.close := by
  rcases h with ⟨_, h1, h2, h3⟩ | ⟨_, h1, h2, h3⟩ <;>
    refine ⟨?_, ?_, ?_, rfl⟩ <;>
    simp only [SocketState.close] <;> split_ifs <;> omega

theorem init_of_initialized {s : SocketState} (e : InitEnv)
    (h : s.socket_initialized = true) : s.init e = (true, s) := by
  simp [SocketState.init, h]

theorem init_success {s : SocketState} {e : InitEnv}
    (h : s.socket_initialized = false) (hs : e.succeeds = true) :
    s.init e = (true, s.connected e) := by
  simp only [SocketState.connected]
  simp only [InitEnv.succeeds, Bool.and_eq_true] at hs
  obtain ⟨⟨⟨⟨⟨⟨h1, h2⟩, h3⟩, h4⟩, h5⟩, h6⟩, h7⟩ := hs
  simp only [SocketState.init, h, h1, h2, h3, h4, h5, h6, h7,
    Bool.false_eq_true, if_false, if_true, Bool.not_true, ite_true]
  have c1 : ¬((e.cmdFd : Int) < 0) := by omega
  have c2 : ¬((e.drFd : Int) < 0) := by omega
  have c3 : ¬((e.dwFd : Int) < 0) := by omega
  simp only [c1, if_false, if_true]
  simp only [c2, c3, if_false, if_true, SocketState.start_dma_handler]
  split <;> simp_all

theorem init_failure {s : SocketState} {e : InitEnv}
    (h : s.socket_initialized = false) (hinv : SessionInv s)
    (hf : e.succeeds = false) :
    (s.init e).1 = false ∧ AllClosed (s.init e).2 := by
  rcases hinv with ⟨hi, _⟩ | ⟨_, h1, h2, h3⟩
  · rw [h] at hi; cases hi
  simp only [SocketState.init, h, Bool.false_eq_true, if_false]
  by_cases hc1 : e.cmdSockOk
  all_goals simp only [hc1, if_true, if_false]
  case neg =>
    simp [AllClosed, h, h2, h3]
  case pos =>
    have c1 : ¬((e.cmdFd : Int) < 0) := by omega
    simp only [c1, if_false]
    by_cases hc2 : e.ptonOk
    case neg => simp [AllClosed, hc2, h, h2, h3]
    case pos =>
      simp only [hc2, Bool.not_true, if_false]
      by_cases hc3 : e.cmdConnOk
      case neg => simp [AllClosed, hc3, h, h2, h3]
      case pos =>
        simp only [hc3, Bool.not_true, if_false]
        by_cases hc4 : e.drSockOk
        case neg => simp [AllClosed, hc4, h, h3]
        case pos =>
          have c2 : ¬((e.drFd : Int) < 0) := by omega
          simp only [hc4, if_true, c2, if_false]
          by_cases hc5 : e.drConnOk
          case neg => simp [AllClosed, hc5, h, h3]
          case pos =>
            simp only [hc5, Bool.not_true, if_false]
            by_cases hc6 : e.dwSockOk
            case neg => simp [AllClosed, hc6, h]
            case pos =>
              have c3 : ¬((e.dwFd : Int) < 0) := by omega
              simp only [hc6, if_true, c3, if_false]
              by_cases hc7 : e.dwConnOk
              case neg => simp [AllClosed, hc7, h]
              case pos =>
                exfalso
                simp [InitEnv.succeeds, hc1, hc2, hc3, hc4, hc5, hc6, hc7]
                  at hf

theorem init_preserves_inv {s : SocketState} (e : InitEnv)
    (h : SessionInv s) : SessionInv (s.init e).2 := by
  by_cases hi : s.socket_initialized = true
  · rw [init_of_initialized e hi]; exact h
  · have hi' : s.socket_initialized = false := by
      cases hx : s.socket_initialized
      · rfl
      · exact absurd hx hi
    by_cases hs : e.succeeds = true
    · rw [init_success hi' hs]
      left
      refine ⟨rfl, ?_, ?_, ?_⟩ <;> simp only [SocketState.connected] <;> omega
    · have hs' : e.succeeds = false := by
        cases hx : e.succeeds
        · rfl
        · exact absurd hx hs
      rcases init_failure hi' h hs' with ⟨_, h1, h2, h3, h4⟩
      right
      exact ⟨h4, h1, h2, h3⟩

theorem close_preserves_inv (s : SocketState) (h : SessionInv s) :
    SessionInv s.close := by
  rcases close_allClosed_of_inv s h with ⟨h1, h2, h3, h4⟩
  right
  exact ⟨h4, h1, h2, h3⟩

theorem inv_foldl (ops : List SessionOp) :
    ∀ s : SocketState, SessionInv s →
      SessionInv (ops.foldl SocketState.applyOp s) := by
  induction ops with
  | nil => intro s h; exact h
  | cons op rest ih =>
    intro s h
    cases op with
    | init e => exact ih _ (init_preserves_inv e h)
    | close => exact ih _ (close_preserves_inv s h)

theorem send_cmd_request_ok {s : SocketState} (h : ¬(s.cmd_sock_fd < 0)) :
    s.send_cmd_request false = (true, s) := by
  simp [SocketState.send_cmd_request, h]

theorem send_cmd_request_err {s : SocketState} (h : ¬(s.cmd_sock_fd < 0)) :
    s.send_cmd_request true = (false, s.close) := by
  simp [SocketState.send_cmd_request, h]

theorem recv_cmd_response_fail {s : SocketState} {r : Int}
    (h : ¬(s.cmd_sock_fd < 0)) (hr : r < sizeof_cmd_resp) :
    s.recv_cmd_response r = (false, s.close) := by
  simp only [SocketState.recv_cmd_response, h, if_false]
  split_ifs <;> rfl

theorem recv_cmd_response_ok {s : SocketState} {r : Int}
    (h : ¬(s.cmd_sock_fd < 0)) (hr : ¬(r < sizeof_cmd_resp)) :
    s.recv_cmd_response r = (true, s) := by
  simp only [SocketState.recv_cmd_response, h, if_false]
  split_ifs <;> first | rfl | (exfalso; simp [sizeof_cmd_resp] at *; omega)

/-- After a successful connect (or when already ready under the
invariant) the command descriptor is valid. -/
theorem ready_inv_cmd_fd {s : SocketState} (hinv : SessionInv s)
    (hi : s.socket_initialized = true) : ¬(s.cmd_sock_fd < 0) := by
  rcases hinv with ⟨_, h1, _, _⟩ | ⟨hf, _⟩
  · omega
  · rw [hi] at hf; cases hf

end Ipc

namespace Ipc

/-- Evaluation of `send_and_wait` from a ready state with a valid command
descriptor: no connect attempt, then the three possible outcomes of the
send/receive pair. -/
theorem saw_ready_eval (s : SocketState) (env : SawEnv) (f a b : Nat)
    (hi : s.socket_initialized = true) (hfd : ¬(s.cmd_sock_fd < 0)) :
    s.send_and_wait env f a b =
      if env.sendErr then
        ⟨0, s.close, 0, some ⟨⟨MsgType.cmdReq, 0⟩, f, 0, a, b⟩⟩
      else if env.recvRet < sizeof_cmd_resp then
        ⟨0, s.close, 0, some ⟨⟨MsgType.cmdReq, 0⟩, f, 0, a, b⟩⟩
      else
        ⟨env.respResult, s, 0, some ⟨⟨MsgType.cmdReq, 0⟩, f, 0, a, b⟩⟩ := by
  by_cases hse : env.sendErr
  · simp [SocketState.send_and_wait, hi, hse, send_cmd_request_err hfd]
  · have hse' : env.sendErr = false := by
      cases hx : env.sendErr
      · rfl
      · exact absurd hx hse
    by_cases hr : env.recvRet < sizeof_cmd_resp
    · simp [SocketState.send_and_wait, hi, hse', hse,
        send_cmd_request_ok hfd, recv_cmd_response_fail hfd hr, hr]
    · simp [SocketState.send_and_wait, hi, hse', hse,
        send_cmd_request_ok hfd, recv_cmd_response_ok hfd hr, hr]

/-- Evaluation of `send_and_wait` from a not-ready state whose single
connect attempt fails: sentinel result, no request sent. -/
theorem saw_connect_fail_eval (s : SocketState) (env : SawEnv) (f a b : Nat)
    (hi : s.socket_initialized = false) (hinv : SessionInv s)
    (hf : env.initEnv.succeeds = false) :
    s.send_and_wait env f a b = ⟨0, (s.init env.initEnv).2, 1, none⟩ := by
  have h1 : (s.init env.initEnv).1 = false := (init_failure hi hinv hf).1
  simp only [SocketState.send_and_wait, hi, Bool.not_false, if_true]
  rw [show s.init env.initEnv = (false, (s.init env.initEnv).2) from by
    rw [← h1]]
  simp

/-- Evaluation of `send_and_wait` from a not-ready state whose connect
attempt succeeds. -/
theorem saw_connect_ok_eval (s : SocketState) (env : SawEnv) (f a b : Nat)
    (hi : s.socket_initialized = false) (hs : env.initEnv.succeeds = true) :
    s.send_and_wait env f a b =
      (if env.sendErr then
        ⟨0, (s.connected env.initEnv).close, 1,
          some ⟨⟨MsgType.cmdReq, 0⟩, f, 0, a, b⟩⟩
      else if env.recvRet < sizeof_cmd_resp then
        ⟨0, (s.connected env.initEnv).close, 1,
          some ⟨⟨MsgType.cmdReq, 0⟩, f, 0, a, b⟩⟩
      else
        ⟨env.respResult, s.connected env.initEnv, 1,
          some ⟨⟨MsgType.cmdReq, 0⟩, f, 0, a, b⟩⟩) := by
  have hfd1 : ¬((s.connected env.initEnv).cmd_sock_fd < 0) := by
    show ¬((env.initEnv.cmdFd : Int) < 0)
    omega
  by_cases hse : env.sendErr
  · simp [SocketState.send_and_wait, hi, init_success hi hs, hse,
      send_cmd_request_err hfd1]
  · have hse' : env.sendErr = false := by
      cases hx : env.sendErr
      · rfl
      · exact absurd hx hse
    by_cases hr : env.recvRet < sizeof_cmd_resp
    · simp [SocketState.send_and_wait, hi, init_success hi hs, hse', hse, hr,
        send_cmd_request_ok hfd1, recv_cmd_response_fail hfd1 hr]
    · simp [SocketState.send_and_wait, hi, init_success hi hs, hse', hse, hr,
        send_cmd_request_ok hfd1, recv_cmd_response_ok hfd1 hr]

end Ipc

namespace Ipc

/-- C2: all-or-nothing Session invariant — after any sequence of `init`
and `close` operations from the freshly constructed client, the session
is ready with all three descriptors valid or not ready with all three
invalid; and an `init` call in which any step fails rolls back every
connection opened so far, leaving the session not-ready with all handles
closed. -/
theorem session_all_or_nothing :
    (∀ ops : List SessionOp,
        SessionInv (ops.foldl SocketState.applyOp SocketState.initial))
    ∧ ∀ (s : SocketState) (e : InitEnv), SessionInv s →
        s.socket_initialized = false → e.succeeds = false →
        (s.init e).1 = false ∧ AllClosed (s.init e).2 := by
  constructor
  · intro ops
    exact inv_foldl ops SocketState.initial (Or.inr ⟨rfl, rfl, rfl, rfl⟩)
  · intro s e hinv h hf
    exact init_failure h hinv hf

/-- Concrete instance of `session_all_or_nothing`: a successful connect
followed by a close keeps the invariant, and an all-failing connect from
the initial state reports failure with everything closed. -/
theorem session_all_or_nothing_witness :
    SessionInv ([SessionOp.init envAllOk, SessionOp.close].foldl
        SocketState.applyOp SocketState.initial)
    ∧ ((SocketState.initial.init envAllFail).1 = false ∧
        AllClosed (SocketState.initial.init envAllFail).2) :=
  ⟨session_all_or_nothing.1 [SessionOp.init envAllOk, SessionOp.close],
   session_all_or_nothing.2 SocketState.initial envAllFail
     (by decide) (by decide) (by decide)⟩

/-- C8: `close()` is idempotent — after one `close` the session is not
ready, all three connection handles are invalid, the DMA loops are
signaled to stop, and a second `close` leaves the state unchanged. -/
theorem close_idempotent (s : SocketState) :
    s.close.socket_initialized = false ∧
    s.close.cmd_sock_fd < 0 ∧ s.close.dma_read_sock_fd < 0 ∧
    s.close.dma_write_sock_fd < 0 ∧
    s.close.dma_handler_running = false ∧
    s.close.close = s.close := by
  obtain ⟨h1, h2, h3, h4, h5⟩ := close_fields s
  refine ⟨h4, h1, h2, h3, h5, ?_⟩
  simp only [SocketState.close, SocketState.mk.injEq]
  refine ⟨?_, ?_, ?_, ?_, ?_⟩ <;> first | trivial | (split_ifs <;> omega)

/-- C1: `send_and_wait` makes exactly one connect attempt when the
session is not ready and none when it is; a failed connect, a failed
send, or a failed/short receive yields the sentinel `0` with the whole
session closed (all handles invalid, ready flag cleared); on success the
response's result field is returned verbatim. -/
theorem send_and_wait_contract (s : SocketState) (env : SawEnv)
    (funct xs1 xs2 : Nat) (hinv : SessionInv s) :
    ((s.send_and_wait env funct xs1 xs2).connectAttempts
        = if s.socket_initialized then 0 else 1)
    ∧ (s.socket_initialized = false → env.initEnv.succeeds = false →
        (s.send_and_wait env funct xs1 xs2).result = 0 ∧
        AllClosed (s.send_and_wait env funct xs1 xs2).state)
    ∧ ((s.socket_initialized = true ∨ env.initEnv.succeeds = true) →
        env.sendErr = true →
        (s.send_and_wait env funct xs1 xs2).result = 0 ∧
        AllClosed (s.send_and_wait env funct xs1 xs2).state)
    ∧ ((s.socket_initialized = true ∨ env.initEnv.succeeds = true) →
        env.sendErr = false → env.recvRet < sizeof_cmd_resp →
        (s.send_and_wait env funct xs1 xs2).result = 0 ∧
        AllClosed (s.send_and_wait env funct xs1 xs2).state)
    ∧ ((s.socket_initialized = true ∨ env.initEnv.succeeds = true) →
        env.sendErr = false → ¬(env.recvRet < sizeof_cmd_resp) →
        (s.send_and_wait env funct xs1 xs2).result = env.respResult) := by
  by_cases hi : s.socket_initialized
  · have hfd := ready_inv_cmd_fd hinv hi
    have he := saw_ready_eval s env funct xs1 xs2 hi hfd
    refine ⟨?_, ?_, ?_, ?_, ?_⟩
    · rw [he]
      split_ifs <;> simp [hi]
    · intro h1 _
      simp [hi] at h1
    · intro _ hse
      rw [he]
      simp only [hse, if_true]
      exact ⟨trivial, close_allClosed_of_inv s hinv⟩
    · intro _ hse hr
      rw [he]
      simp only [hse, hr, Bool.false_eq_true, if_false, if_true]
      exact ⟨trivial, close_allClosed_of_inv s hinv⟩
    · intro _ hse hr
      rw [he]
      simp only [hse, hr, Bool.false_eq_true, if_false]
  · have hi' : s.socket_initialized = false := by
      cases hx : s.socket_initialized
      · rfl
      · exact absurd hx hi
    by_cases hs : env.initEnv.succeeds
    · have he := saw_connect_ok_eval s env funct xs1 xs2 hi' hs
      have hconn : SessionInv (s.connected env.initEnv) := by
        left
        refine ⟨rfl, ?_, ?_, ?_⟩ <;> simp only [SocketState.connected] <;> omega
      refine ⟨?_, ?_, ?_, ?_, ?_⟩
      · rw [he]
        split_ifs <;> simp [hi']
      · intro _ h2
        rw [h2] at hs
        cases hs
      · intro _ hse
        rw [he]
        simp only [hse, if_true]
        exact ⟨trivial, close_allClosed_of_inv _ hconn⟩
      · intro _ hse hr
        rw [he]
        simp only [hse, hr, Bool.false_eq_true, if_false, if_true]
        exact ⟨trivial, close_allClosed_of_inv _ hconn⟩
      · intro _ hse hr
        rw [he]
        simp only [hse, hr, Bool.false_eq_true, if_false]
    · have hs' : env.initEnv.succeeds = false := by
        cases hx : env.initEnv.succeeds
        · rfl
        · exact absurd hx hs
      have he := saw_connect_fail_eval s env funct xs1 xs2 hi' hinv hs'
      refine ⟨?_, ?_, ?_, ?_, ?_⟩
      · rw [he]
        simp [hi']
      · intro _ _
        rw [he]
        exact ⟨rfl, (init_failure hi' hinv hs').2⟩
      · intro hor _
        rcases hor with h | h
        · rw [hi'] at h; cases h
        · rw [hs'] at h; cases h
      · intro hor _ _
        rcases hor with h | h
        · rw [hi'] at h; cases h
        · rw [hs'] at h; cases h
      · intro hor _ _
        rcases hor with h | h
        · rw [hi'] at h; cases h
        · rw [hs'] at h; cases h

/-- Concrete instance of `send_and_wait_contract`: from a ready state
with a complete 8-byte response carrying 7, the dispatch returns 7; from
the initial state with an all-failing connect, the dispatch returns the
sentinel 0 with everything closed. -/
theorem send_and_wait_contract_witness :
    ((readyState.send_and_wait ⟨envAllOk, false, 8, 7⟩ 1 2 3).result = 7)
    ∧ ((SocketState.initial.send_and_wait ⟨envAllFail, false, 8, 7⟩ 1 2 3).result = 0
        ∧ AllClosed
          (SocketState.initial.send_and_wait ⟨envAllFail, false, 8, 7⟩ 1 2 3).state) :=
  ⟨(send_and_wait_contract readyState ⟨envAllOk, false, 8, 7⟩ 1 2 3
      (by decide)).2.2.2.2 (Or.inl rfl) rfl (by decide),
   (send_and_wait_contract SocketState.initial ⟨envAllFail, false, 8, 7⟩ 1 2 3
      (by decide)).2.1 rfl (by decide)⟩

/-- C9: deterministic wire encoding — whenever a dispatch reaches the
send step, the request record it hands to `send_cmd_request` has
`msg_type = MSG_TYPE_CMD_REQ`, zeroed header-reserved and padding fields,
and the funct/operand arguments verbatim; the record is a function of the
arguments alone, so equal arguments give identical records. -/
theorem cmd_request_wire_encoding (s : SocketState) (env : SawEnv)
    (funct xs1 xs2 : Nat)
    (h : s.socket_initialized = true ∨
         (s.socket_initialized = false ∧ env.initEnv.succeeds = true)) :
    (s.send_and_wait env funct xs1 xs2).sentRequest =
      some { header := { msg_type := MsgType.cmdReq, reserved := 0 },
             funct := funct, padding := 0, xs1 := xs1, xs2 := xs2 } := by
  rcases h with hi | ⟨hi, hs⟩
  · simp only [SocketState.send_and_wait, hi, Bool.not_true, if_false,
      Bool.false_eq_true, ite_false]
    split_ifs <;> rfl
  · rw [saw_connect_ok_eval s env funct xs1 xs2 hi hs]
    split_ifs <;> rfl

/-- Concrete instance of `cmd_request_wire_encoding`. -/
theorem cmd_request_wire_encoding_witness :
    (readyState.send_and_wait ⟨envAllOk, false, 8, 7⟩ 24 4096 99).sentRequest =
      some { header := { msg_type := MsgType.cmdReq, reserved := 0 },
             funct := 24, padding := 0, xs1 := 4096, xs2 := 99 } :=
  cmd_request_wire_encoding readyState ⟨envAllOk, false, 8, 7⟩ 24 4096 99
    (Or.inl rfl)

end Ipc

namespace Customext

/-- C6 counterexample: on the customext client channel, a `recv()` that
returns 4 of the 8 response bytes is accepted as success and the client
is not closed — a short transfer is not treated as a transport failure on
this channel. -/
theorem short_recv_accepted_counterexample :
    (0 : Int) < 4 ∧ (4 : Int) < sizeof_socket_resp ∧
    CState.recv_response { sock_fd := 3, socket_initialized := true } 4 =
      (true, { sock_fd := 3, socket_initialized := true }) := by
  decide

end Customext

namespace Ipc

/-- C6 (amended): on the host IPC command channel, `recv_cmd_response`
treats a positive short receive exactly like a transport failure (the
call fails and the whole session is closed); but `recv_header` and the
customext client's `recv_response` accept any positive byte count, so
short transfers are not treated as failures on every receive path. -/
theorem short_transfer_behavior (s : SocketState) (c : Customext.CState)
    (r : Int) (hfd : ¬(s.cmd_sock_fd < 0)) (hcfd : ¬(c.sock_fd < 0))
    (h0 : 0 < r) (hr : r < sizeof_cmd_resp) :
    s.recv_cmd_response r = (false, s.close)
    ∧ s.recv_header r = (true, s)
    ∧ Customext.CState.recv_response c r = (true, c) := by
  have hneg : ¬(r < 0) := by omega
  have hzero : ¬(r = 0) := by omega
  refine ⟨recv_cmd_response_fail hfd hr, ?_, ?_⟩
  · simp [SocketState.recv_header, hfd, hneg, hzero]
  · simp [Customext.CState.recv_response, hcfd, hneg, hzero]

/-- Concrete instance of `short_transfer_behavior` at a 4-byte receive. -/
theorem short_transfer_behavior_witness :
    readyState.recv_cmd_response 4 = (false, readyState.close)
    ∧ readyState.recv_header 4 = (true, readyState)
    ∧ Customext.CState.recv_response
        { sock_fd := 3, socket_initialized := true } 4 =
        (true, { sock_fd := 3, socket_initialized := true }) :=
  short_transfer_behavior readyState
    { sock_fd := 3, socket_initialized := true } 4
    (by decide) (by decide) (by decide) (by decide)

end Ipc

namespace Ipc

theorem read_loop_decomp (cb : Nat → Nat → Bebop.Dma128)
    (iters : List ReadIter) :
    ∃ reqs : List DmaReadReq,
      dma_read_handler_thread cb iters = (reqs.map (readRound cb)).flatten
      ∨ dma_read_handler_thread cb iters =
          (reqs.map (readRound cb)).flatten ++ [ReadEv.recvFail]
      ∨ ∃ r, dma_read_handler_thread cb iters =
          (reqs.map (readRound cb)).flatten ++
            [ReadEv.recvReq r, ReadEv.invokeCb r, ReadEv.sendFail] := by
  induction iters with
  | nil => exact ⟨[], Or.inl rfl⟩
  | cons it rest ih =>
    by_cases hg : it.guard
    · cases hrecv : it.recvOk with
      | none =>
        refine ⟨[], Or.inr (Or.inl ?_)⟩
        simp [dma_read_handler_thread, hg, hrecv]
      | some req =>
        by_cases hsend : it.sendOk
        · obtain ⟨reqs, hdec⟩ := ih
          refine ⟨req :: reqs, ?_⟩
          have hunf : dma_read_handler_thread cb (it :: rest) =
              readRound cb req ++ dma_read_handler_thread cb rest := by
            simp [dma_read_handler_thread, hg, hrecv, hsend, readRound]
          rcases hdec with h | h | ⟨r, h⟩
          · exact Or.inl (by rw [hunf, h]; simp)
          · exact Or.inr (Or.inl (by rw [hunf, h]; simp))
          · exact Or.inr (Or.inr ⟨r, by rw [hunf, h]; simp⟩)
        · refine ⟨[], Or.inr (Or.inr ⟨req, ?_⟩)⟩
          simp [dma_read_handler_thread, hg, hrecv, hsend]
    · exact ⟨[], Or.inl (by simp [dma_read_handler_thread, hg])⟩

theorem write_loop_decomp (witers : List WriteIter) :
    ∃ reqs : List DmaWriteReq,
      dma_write_handler_thread witers = (reqs.map writeRound).flatten
      ∨ dma_write_handler_thread witers =
          (reqs.map writeRound).flatten ++ [WriteEv.recvFail]
      ∨ ∃ r, dma_write_handler_thread witers =
          (reqs.map writeRound).flatten ++
            [WriteEv.recvReq r, WriteEv.invokeCb r, WriteEv.sendFail] := by
  induction witers with
  | nil => exact ⟨[], Or.inl rfl⟩
  | cons it rest ih =>
    by_cases hg : it.guard
    · cases hrecv : it.recvOk with
      | none =>
        refine ⟨[], Or.inr (Or.inl ?_)⟩
        simp [dma_write_handler_thread, hg, hrecv]
      | some req =>
        by_cases hsend : it.sendOk
        · obtain ⟨reqs, hdec⟩ := ih
          refine ⟨req :: reqs, ?_⟩
          have hunf : dma_write_handler_thread (it :: rest) =
              writeRound req ++ dma_write_handler_thread rest := by
            simp [dma_write_handler_thread, hg, hrecv, hsend, writeRound]
          rcases hdec with h | h | ⟨r, h⟩
          · exact Or.inl (by rw [hunf, h]; simp)
          · exact Or.inr (Or.inl (by rw [hunf, h]; simp))
          · exact Or.inr (Or.inr ⟨r, by rw [hunf, h]; simp⟩)
        · refine ⟨[], Or.inr (Or.inr ⟨req, ?_⟩)⟩
          simp [dma_write_handler_thread, hg, hrecv, hsend]
    · exact ⟨[], Or.inl (by simp [dma_write_handler_thread, hg])⟩

/-- C5: each DMA responder loop trace decomposes into complete service
rounds — one received request, one callback invocation, one response, in
that order — followed by at most one terminal failure event (a failed
receive, or a received-and-serviced request whose response send failed);
nothing follows the failure, so the loop never restarts after it. -/
theorem dma_responder_loops_protocol (cb : Nat → Nat → Bebop.Dma128)
    (iters : List ReadIter) (witers : List WriteIter) :
    (∃ reqs : List DmaReadReq,
      dma_read_handler_thread cb iters = (reqs.map (readRound cb)).flatten
      ∨ dma_read_handler_thread cb iters =
          (reqs.map (readRound cb)).flatten ++ [ReadEv.recvFail]
      ∨ ∃ r, dma_read_handler_thread cb iters =
          (reqs.map (readRound cb)).flatten ++
            [ReadEv.recvReq r, ReadEv.invokeCb r, ReadEv.sendFail])
    ∧ (∃ wreqs : List DmaWriteReq,
      dma_write_handler_thread witers = (wreqs.map writeRound).flatten
      ∨ dma_write_handler_thread witers =
          (wreqs.map writeRound).flatten ++ [WriteEv.recvFail]
      ∨ ∃ r, dma_write_handler_thread witers =
          (wreqs.map writeRound).flatten ++
            [WriteEv.recvReq r, WriteEv.invokeCb r, WriteEv.sendFail]) :=
  ⟨read_loop_decomp cb iters, write_loop_decomp witers⟩

end Ipc

namespace Bebop

/-- C10: the `bebop_custom` hook passes `reg_t(-1)` (all-ones) for an
operand whose register-use bit is clear and the source register's value
when it is set; it writes the destination register with the dispatch
result exactly when the `xd` bit is set, leaving every other register
unchanged; and it always continues at `pc + 4`. -/
theorem bebop_custom_hook (dispatch : Nat → Nat → Nat → Nat)
    (xpr : Nat → Nat) (u : RoccInsn) (pc : Nat) :
    (bebop_custom dispatch xpr u pc).nextPc = pc + 4
    ∧ (u.xs1 = false →
        (bebop_custom dispatch xpr u pc).dispatchedA = allOnes64)
    ∧ (u.xs1 = true →
        (bebop_custom dispatch xpr u pc).dispatchedA = xpr u.rs1)
    ∧ (u.xs2 = false →
        (bebop_custom dispatch xpr u pc).dispatchedB = allOnes64)
    ∧ (u.xs2 = true →
        (bebop_custom dispatch xpr u pc).dispatchedB = xpr u.rs2)
    ∧ (u.xd = true →
        (bebop_custom dispatch xpr u pc).xpr u.rd =
          dispatch u.funct (bebop_custom dispatch xpr u pc).dispatchedA
            (bebop_custom dispatch xpr u pc).dispatchedB)
    ∧ (u.xd = false → (bebop_custom dispatch xpr u pc).xpr = xpr)
    ∧ (∀ r, r ≠ u.rd → (bebop_custom dispatch xpr u pc).xpr r = xpr r) := by
  refine ⟨rfl, ?_, ?_, ?_, ?_, ?_, ?_, ?_⟩
  · intro h; simp [bebop_custom, h]
  · intro h; simp [bebop_custom, h]
  · intro h; simp [bebop_custom, h]
  · intro h; simp [bebop_custom, h]
  · intro h; simp [bebop_custom, h]
  · intro h; simp [bebop_custom, h]
  · intro r hr
    by_cases hxd : u.xd <;> simp [bebop_custom, hxd, hr]

/-- Concrete instance of `bebop_custom_hook`: with `xs1` clear the first
operand is all-ones, the hook falls through to `pc + 4`, and a register
other than `rd` keeps its value. -/
theorem bebop_custom_hook_witness :
    (bebop_custom (fun f a b => f + a + b) (fun r => r + 10)
        hookInsn 100).nextPc = 104
    ∧ (bebop_custom (fun f a b => f + a + b) (fun r => r + 10)
        hookInsn 100).dispatchedA = allOnes64
    ∧ (bebop_custom (fun f a b => f + a + b) (fun r => r + 10)
        hookInsn 100).xpr 5 = 15 := by
  have h := bebop_custom_hook (fun f a b => f + a + b) (fun r => r + 10)
    hookInsn 100
  exact ⟨h.1, h.2.1 rfl, by rw [h.2.2.2.2.2.2.2 5 (by decide)]⟩

end Bebop

namespace Bebop

theorem read_from_dram_zero (m : Mem) (a : Nat) :
    read_from_dram m a 0 = 0 := rfl

theorem read_from_dram_succ (m : Mem) (a w : Nat) :
    read_from_dram m a (w + 1) =
      read_from_dram m a w ||| (loadByte m (a + w)) <<< (w * 8) := by
  unfold read_from_dram
  rw [List.range_succ, List.foldl_append]
  rfl

theorem loadByte_lt (m : Mem) (a : Nat) : loadByte m a < 256 :=
  Nat.mod_lt _ (by norm_num)

theorem read_from_dram_lt (m : Mem) (a w : Nat) :
    read_from_dram m a w < 2 ^ (8 * w) := by
  induction w with
  | zero => simp [read_from_dram_zero]
  | succ w ih =>
    rw [read_from_dram_succ]
    have hexp : 8 * (w + 1) = 8 * w + 8 := by ring
    rw [hexp]
    apply Nat.or_lt_two_pow
    · exact lt_of_lt_of_le ih (Nat.pow_le_pow_right (by norm_num) (by omega))
    · rw [Nat.shiftLeft_eq]
      calc loadByte m (a + w) * 2 ^ (w * 8)
          < 256 * 2 ^ (w * 8) :=
            (Nat.mul_lt_mul_right (Nat.pos_pow_of_pos _ (by norm_num))).mpr
              (loadByte_lt m (a + w))
        _ = 2 ^ (8 * w + 8) := by
            rw [show (256 : Nat) = 2 ^ 8 by norm_num, ← pow_add]
            congr 1
            ring

theorem lor_disjoint_eq_add (x b k : Nat) (hx : x < 2 ^ k) :
    x ||| (b <<< k) = x + b * 2 ^ k := by
  rw [Nat.shiftLeft_eq, mul_comm b (2 ^ k), Nat.lor_comm,
    ← Nat.mul_add_lt_is_or hx b]
  exact Nat.add_comm _ _

theorem read_from_dram_eq_leCompose (m : Mem) (a w : Nat) :
    read_from_dram m a w = leCompose m a w := by
  induction w with
  | zero => simp [read_from_dram_zero, leCompose]
  | succ w ih =>
    have hlt : leCompose m a w < 2 ^ (w * 8) := by
      have h := read_from_dram_lt m a w
      rw [ih] at h
      rwa [Nat.mul_comm 8 w] at h
    rw [read_from_dram_succ, ih, lor_disjoint_eq_add _ _ _ hlt]
    simp only [leCompose, Finset.sum_range_succ, loadByte]
    rw [Nat.mul_comm w 8]

theorem write_to_dram_zero (m : Mem) (a d : Nat) :
    write_to_dram m a d 0 = m := rfl

theorem write_to_dram_succ (m : Mem) (a d w : Nat) :
    write_to_dram m a d (w + 1) =
      storeByte (write_to_dram m a d w) (a + w) ((d >>> (w * 8)) &&& 0xFF) := by
  unfold write_to_dram
  rw [List.range_succ, List.foldl_append]
  rfl

theorem and_255_eq_mod (x : Nat) : x &&& 0xFF = x % 256 := by
  have h := Nat.and_pow_two_sub_one_eq_mod x 8
  norm_num at h
  exact h

theorem write_to_dram_at (m : Mem) (a d : Nat) {w i : Nat} (hi : i < w) :
    write_to_dram m a d w (a + i) = (d >>> (i * 8)) % 256 := by
  induction w with
  | zero => omega
  | succ w ih =>
    rw [write_to_dram_succ]
    by_cases hiw : i = w
    · subst hiw
      simp [storeByte, and_255_eq_mod]
    · have hlt : i < w := by omega
      have hne : a + i ≠ a + w := by omega
      simp only [storeByte, hne, if_false]
      exact ih hlt

theorem write_to_dram_outside (m : Mem) (a d w x : Nat)
    (h : x < a ∨ a + w ≤ x) : write_to_dram m a d w x = m x := by
  induction w with
  | zero => rfl
  | succ w ih =>
    rw [write_to_dram_succ]
    have hne : x ≠ a + w := by omega
    simp only [storeByte, hne, if_false]
    exact ih (by omega)

theorem read_from_dram_congr {m1 m2 : Mem} (a w : Nat)
    (h : ∀ i, i < w → m1 (a + i) = m2 (a + i)) :
    read_from_dram m1 a w = read_from_dram m2 a w := by
  induction w with
  | zero => rfl
  | succ w ih =>
    rw [read_from_dram_succ, read_from_dram_succ]
    rw [ih (fun i hi => h i (by omega))]
    unfold loadByte
    rw [h w (by omega)]

theorem bytes_sum_mod (d w : Nat) :
    Finset.sum (Finset.range w)
        (fun i => ((d >>> (i * 8)) % 256) * 2 ^ (8 * i))
      = d % 2 ^ (8 * w) := by
  induction w with
  | zero => simp [Nat.mod_one]
  | succ w ih =>
    rw [Finset.sum_range_succ, ih]
    have hexp : (8 : Nat) * (w + 1) = 8 * w + 8 := by ring
    rw [hexp, pow_add, Nat.mod_mul, Nat.shiftRight_eq_div_pow]
    rw [Nat.mul_comm w 8]
    have h256 : (256 : Nat) = 2 ^ 8 := by norm_num
    rw [h256]
    ring

theorem write_read_roundtrip (m : Mem) (a d w : Nat) :
    read_from_dram (write_to_dram m a d w) a w = d % 2 ^ (8 * w) := by
  rw [read_from_dram_eq_leCompose]
  unfold leCompose
  rw [← bytes_sum_mod d w]
  apply Finset.sum_congr rfl
  intro i hi
  rw [write_to_dram_at m a d (Finset.mem_range.mp hi)]
  congr 1
  omega

end Bebop

namespace Bebop

/-- C3: Memory Access Adapter round-trip law — for every supported width,
address, and value representable in that width, writing through
`write_cb` and reading back through `read_cb` returns the original value
(carried as the little-endian low/high 64-bit halves). -/
theorem mem_adapter_roundtrip (m : Mem) (a v w : Nat)
    (hw : w = 1 ∨ w = 2 ∨ w = 4 ∨ w = 8 ∨ w = 16)
    (hv : v < 2 ^ (8 * w)) :
    ∃ m2, write_cb m a ⟨v % 2 ^ 64, v / 2 ^ 64⟩ w = some m2 ∧
      read_cb m2 a w = some ⟨v % 2 ^ 64, v / 2 ^ 64⟩ := by
  rcases hw with h | h | h | h | h <;> subst h
  · have hv' : v < 2 ^ 8 := by simpa using hv
    have hv64 : v < 2 ^ 64 := lt_trans hv' (by norm_num)
    have hmod : v % 2 ^ 64 = v := Nat.mod_eq_of_lt hv64
    have hdiv : v / 2 ^ 64 = 0 := Nat.div_eq_of_lt hv64
    refine ⟨_, rfl, ?_⟩
    simp only [read_cb, write_cb, hmod, hdiv]
    rw [write_read_roundtrip, show (8 : Nat) * 1 = 8 by norm_num,
      Nat.mod_eq_of_lt hv', Nat.mod_eq_of_lt hv']
  · have hv' : v < 2 ^ 16 := by simpa using hv
    have hv64 : v < 2 ^ 64 := lt_trans hv' (by norm_num)
    have hmod : v % 2 ^ 64 = v := Nat.mod_eq_of_lt hv64
    have hdiv : v / 2 ^ 64 = 0 := Nat.div_eq_of_lt hv64
    refine ⟨_, rfl, ?_⟩
    simp only [read_cb, write_cb, hmod, hdiv]
    rw [write_read_roundtrip, show (8 : Nat) * 2 = 16 by norm_num,
      Nat.mod_eq_of_lt hv', Nat.mod_eq_of_lt hv']
  · have hv' : v < 2 ^ 32 := by simpa using hv
    have hv64 : v < 2 ^ 64 := lt_trans hv' (by norm_num)
    have hmod : v % 2 ^ 64 = v := Nat.mod_eq_of_lt hv64
    have hdiv : v / 2 ^ 64 = 0 := Nat.div_eq_of_lt hv64
    refine ⟨_, rfl, ?_⟩
    simp only [read_cb, write_cb, hmod, hdiv]
    rw [write_read_roundtrip, show (8 : Nat) * 4 = 32 by norm_num,
      Nat.mod_eq_of_lt hv', Nat.mod_eq_of_lt hv']
  · have hv' : v < 2 ^ 64 := by simpa using hv
    have hmod : v % 2 ^ 64 = v := Nat.mod_eq_of_lt hv'
    have hdiv : v / 2 ^ 64 = 0 := Nat.div_eq_of_lt hv'
    refine ⟨_, rfl, ?_⟩
    simp only [read_cb, write_cb, hmod, hdiv]
    rw [write_read_roundtrip, show (8 : Nat) * 8 = 64 by norm_num,
      Nat.mod_eq_of_lt hv']
  · have hv' : v < 2 ^ 128 := by simpa using hv
    have hlo : v % 2 ^ 64 < 2 ^ 64 := Nat.mod_lt _ (by norm_num)
    have hhi : v / 2 ^ 64 < 2 ^ 64 := by
      apply Nat.div_lt_of_lt_mul
      calc v < 2 ^ 128 := hv'
        _ = 2 ^ 64 * 2 ^ 64 := by norm_num
    refine ⟨_, rfl, ?_⟩
    simp only [read_cb, write_cb]
    have hfst : read_from_dram
        (write_to_dram (write_to_dram m a (v % 2 ^ 64) 8) (a + 8)
          (v / 2 ^ 64) 8) a 8 = v % 2 ^ 64 := by
      rw [read_from_dram_congr a 8
        (fun i hilt => write_to_dram_outside _ (a + 8) (v / 2 ^ 64) 8 (a + i)
          (Or.inl (by omega)))]
      rw [write_read_roundtrip, show (8 : Nat) * 8 = 64 by norm_num]
      exact Nat.mod_eq_of_lt hlo
    have hsnd : read_from_dram
        (write_to_dram (write_to_dram m a (v % 2 ^ 64) 8) (a + 8)
          (v / 2 ^ 64) 8) (a + 8) 8 = v / 2 ^ 64 := by
      rw [write_read_roundtrip, show (8 : Nat) * 8 = 64 by norm_num]
      exact Nat.mod_eq_of_lt hhi
    rw [hfst, hsnd]

/-- Concrete instance of `mem_adapter_roundtrip` at width 2,
address 5, value `0x1234`. -/
theorem mem_adapter_roundtrip_witness :
    (2 = 1 ∨ 2 = 2 ∨ 2 = 4 ∨ 2 = 8 ∨ 2 = 16) ∧ 0x1234 < 2 ^ (8 * 2) ∧
    (∃ m2, write_cb sampleMem 5 ⟨0x1234 % 2 ^ 64, 0x1234 / 2 ^ 64⟩ 2
        = some m2 ∧
      read_cb m2 5 2 = some ⟨0x1234 % 2 ^ 64, 0x1234 / 2 ^ 64⟩) :=
  ⟨by norm_num, by norm_num,
   mem_adapter_roundtrip sampleMem 5 0x1234 2 (by norm_num) (by norm_num)⟩

/-- C4: for widths 1/2/4/8 the read callback returns the little-endian
composition of the bytes at `[a, a + w)` in the low half with the high
half (and all bits at or above `8 w`) zero; for width 16 the low half is
the composition of bytes `[a, a + 8)` and the high half of
`[a + 8, a + 16)`. -/
theorem read_cb_little_endian (m : Mem) (a w : Nat)
    (hw : w = 1 ∨ w = 2 ∨ w = 4 ∨ w = 8) :
    (read_cb m a w = some ⟨leCompose m a w, 0⟩
      ∧ leCompose m a w < 2 ^ (8 * w))
    ∧ read_cb m a 16 = some ⟨leCompose m a 8, leCompose m (a + 8) 8⟩ := by
  constructor
  · constructor
    · rcases hw with h | h | h | h <;> subst h <;>
        simp [read_cb, read_from_dram_eq_leCompose]
    · rw [← read_from_dram_eq_leCompose]
      exact read_from_dram_lt m a w
  · simp [read_cb, read_from_dram_eq_leCompose]

/-- Concrete instance of `read_cb_little_endian` at width 2 and
width 16. -/
theorem read_cb_little_endian_witness :
    (read_cb sampleMem 0 2 = some ⟨leCompose sampleMem 0 2, 0⟩
      ∧ leCompose sampleMem 0 2 < 2 ^ (8 * 2))
    ∧ read_cb sampleMem 0 16
        = some ⟨leCompose sampleMem 0 8, leCompose sampleMem (0 + 8) 8⟩ :=
  read_cb_little_endian sampleMem 0 2 (by norm_num)

/-- C7: for any requested width outside `{1,2,4,8,16}` both adapter
callbacks hit the `abort()` default branch (modelled as `none`); for any
width inside the set both are total (return `some`). -/
theorem cb_width_contract (m : Mem) (a : Nat) (data : Dma128) (sz : Nat) :
    ((sz ≠ 1 ∧ sz ≠ 2 ∧ sz ≠ 4 ∧ sz ≠ 8 ∧ sz ≠ 16) →
      read_cb m a sz = none ∧ write_cb m a data sz = none)
    ∧ ((sz = 1 ∨ sz = 2 ∨ sz = 4 ∨ sz = 8 ∨ sz = 16) →
      (read_cb m a sz).isSome = true ∧ (write_cb m a data sz).isSome = true) := by
  constructor
  · rintro ⟨h1, h2, h3, h4, h5⟩
    constructor
    · unfold read_cb
      split <;> simp_all
    · unfold write_cb
      split <;> simp_all
  · rintro (h | h | h | h | h) <;> subst h <;> simp [read_cb, write_cb]

/-- Concrete instance of `cb_width_contract` at the unsupported width 3
and the supported width 8. -/
theorem cb_width_contract_witness :
    (read_cb sampleMem 0 3 = none ∧ write_cb sampleMem 0 ⟨1, 0⟩ 3 = none)
    ∧ ((read_cb sampleMem 0 8).isSome = true
      ∧ (write_cb sampleMem 0 ⟨1, 0⟩ 8).isSome = true) :=
  ⟨(cb_width_contract sampleMem 0 ⟨1, 0⟩ 3).1 (by norm_num),
   (cb_width_contract sampleMem 0 ⟨1, 0⟩ 8).2 (by norm_num)⟩

end Bebop
